import Mathlib

/-!
# Verification of the ProcessBuilder drag-and-drop component

Shallow embedding of `src/ProcessBuilder.tsx`: the row/snapshot data model,
the drop-transition handler `handleDrop`, the history operations
(`apply`, `undo`, `redo`, `clearAll`), persistence (`loadHistory`,
`saveHistory`), and the component initialisation.

JavaScript conventions captured by the embedding:
- a possibly-`undefined` string is `Option String` (`none` = `undefined`);
  slot values conflate `null`/`undefined` (both falsy, both render as empty,
  and no behaviour in the component distinguishes them);
- a JS object used as a string-keyed map is an insertion-ordered association
  list with unique keys; assignment updates in place when the key is present
  and appends otherwise;
- JS truthiness of a string value: `undefined`, `null` and `""` are falsy;
- `raw.split(':')` is `String.splitOn ":"` (identical semantics on these
  inputs); destructuring past the end of the array yields `undefined`;
- a thrown `TypeError` (e.g. calling `.startsWith` on `undefined`) is the
  `crash` outcome: the handler aborts before committing any state.
-/

/-- The four draggable function tokens (`ALL_FUNCTIONS` in the source). -/
def ALL_FUNCTIONS : List String := ["map", "filter", "reduce", "compress"]

/-- The slot map of a row: a JS object from slot ids to a token or null,
modelled as an insertion-ordered association list. -/
abbrev SlotState := List (String × Option String)

/-- State of one row (`RowState` in the source): id, palette, slots, trash.
Palette and trash entries are possibly-`undefined` strings because the JS
code can push an `undefined` drag token into them. -/
structure RowState where
  rowId : String
  palette : List (Option String)
  slots : SlotState
  trash : List (Option String)
deriving DecidableEq

/-- A snapshot: the full ordered list of rows at one point in time. -/
abbrev Snapshot := List RowState

/-- Leading-segment test on character lists (structural, so that concrete
states can be evaluated by `decide`). -/
def charsLead : List Char → List Char → Bool
  | [], _ => true
  | _ :: _, [] => false
  | c :: cs, d :: ds => c = d && charsLead cs ds

/-- The JS string test `s.startsWith(pre)`. -/
def strStartsWith (s pre : String) : Bool :=
  charsLead pre.data s.data

/-- The JS split `raw.split(':')`: split on every colon, keeping empty
pieces (`"a:b::c"` ↦ `["a","b","","c"]`, `""` ↦ `[""]`). -/
def jsSplit (raw : String) : List String :=
  (raw.data.splitOn ':').map (fun cs => String.mk cs)

/-- Map over a list with the element index, starting at `i`
(the `rows.map((r, idx) => ...)` of the source). -/
def mapWithIndex (f : Nat → RowState → RowState) : Nat → List RowState → List RowState
  | _, [] => []
  | i, r :: rs => f i r :: mapWithIndex f (i + 1) rs

/-- JS object property read `m[k]`: value of the first binding of `k`,
`undefined` (= `none`) when the key is absent. -/
def getVal : SlotState → String → Option String
  | [], _ => none
  | p :: m, k => if p.1 = k then p.2 else getVal m k

/-- Whether the key is present in the object. -/
def containsKey : SlotState → String → Bool
  | [], _ => false
  | p :: m, k => p.1 = k || containsKey m k

/-- JS object property write `m[k] = v`: update in place when present
(preserving insertion order), append when absent. -/
def setKey (m : SlotState) (k : String) (v : Option String) : SlotState :=
  if containsKey m k then
    m.map (fun p => if p.1 = k then (k, v) else p)
  else
    m ++ [(k, v)]

/-- JS truthiness of a possibly-undefined string. -/
def truthy : Option String → Bool
  | none => false
  | some s => s ≠ ""

/-- The single row of the initial state: `row-1`, full palette, three empty
slots, empty trash. -/
def initRow : RowState where
  rowId := "row-1"
  palette := ALL_FUNCTIONS.map some
  slots := [("slot-1-1", none), ("slot-1-2", none), ("slot-1-3", none)]
  trash := []

/-- The initial row list (`initialRows` in the source). -/
def initialRows : Snapshot := [initRow]

/-- Outcome of a call to the drop handler. -/
inductive DropResult where
  | rejected
  | crash
  | accepted (rows : Snapshot)
deriving DecidableEq

/-- Removal phase of `handleDrop` (source lines 137–143): remove the dragged
token from its source container (filtered out of palette or trash, or the
source slot set to null). When `srcContainer` is `undefined` the JS code
throws a `TypeError` (`undefined.startsWith`); that case is the `crash`
branch of `handleDrop` below, so here `sc` is a genuine string. -/
def removeFrom (r : RowState) (sc : String) (fn : Option String) : RowState :=
  if sc = "palette" then
    { r with palette := r.palette.filter (fun item => item ≠ fn) }
  else if strStartsWith sc "slot-" then
    { r with slots := setKey r.slots sc none }
  else
    { r with trash := r.trash.filter (fun item => item ≠ fn) }

/-- Placement phase of `handleDrop` (source lines 145–163): add or swap the
dragged token into the destination container. -/
def placeInto (r : RowState) (sc : String) (dest : String)
    (fn : Option String) : RowState :=
  if strStartsWith dest "slot-" then
    let existing := getVal r.slots dest
    if truthy existing then
      let r1 := { r with slots := setKey r.slots dest fn }
      if strStartsWith sc "slot-" then
        { r1 with slots := setKey r1.slots sc existing }
      else if sc = "palette" then
        { r1 with palette := r1.palette ++ [existing] }
      else
        { r1 with trash := r1.trash ++ [existing] }
    else
      { r with slots := setKey r.slots dest fn }
  else if dest = "palette" then
    { r with palette := r.palette ++ [fn] }
  else
    { r with trash := r.trash ++ [fn] }

/-- The per-row body of the `rows.map` callback in `handleDrop`:
removal then placement, for the matched row. -/
def transformRow (r : RowState) (sc : String) (dest : String)
    (fn : Option String) : RowState :=
  placeInto (removeFrom r sc fn) sc dest fn

/-- Drop handler `handleDrop` (source lines 118–170): parse the drag payload, apply the
guards, and produce the next row list for the `apply` commit.
`rejected` = the handler returns without calling `apply`;
`crash` = a `TypeError` is thrown before any state change. -/
def handleDrop (rows : Snapshot) (rowIdx : Nat) (dest : String)
    (raw : String) : DropResult :=
  if raw = "" then .rejected
  else
    match rows.get? rowIdx with
    | none => .crash
    | some row =>
      let parts := jsSplit raw
      let srcRow := parts.headD ""
      let srcContainer := parts.get? 1
      let fn := parts.get? 3
      if row.rowId ≠ srcRow ∨ srcContainer = some dest then .rejected
      else
        match srcContainer with
        | none => .crash
        | some sc =>
          .accepted (mapWithIndex (fun idx r =>
            if idx ≠ rowIdx then r else transformRow r sc dest fn) 0 rows)

/-- The drag payload written by `handleDragStart`:
`` `${rowId}:${container}::${fn}` ``. -/
def mkPayload (rowId container fn : String) : String :=
  rowId ++ ":" ++ container ++ "::" ++ fn

/-- A drag payload of the exact shape `handleDragStart` writes
(`` `${rowId}:${container}::${fn}` ``): splitting on `:` yields
`[rowId, container, "", fn]`. -/
def WellFormedPayload (raw : String) : Prop :=
  ∃ a b c, jsSplit raw = [a, b, "", c]

/-- Commit `apply` (source lines 67–73): truncate the log to `[0, index]`, append
the new snapshot, advance the cursor. Returns the new (history, index). -/
def applyFn (history : List Snapshot) (index : Nat) (newRows : Snapshot) :
    List Snapshot × Nat :=
  (history.take (index + 1) ++ [newRows], index + 1)

/-- Undo (source lines 76–78): decrement the cursor when positive. -/
def undoFn (index : Nat) : Nat :=
  if 0 < index then index - 1 else index

/-- Redo (source lines 81–83): JS `index < history.length - 1`. On the
empty history JS compares against `-1` (always false) and truncated `Nat`
subtraction compares against `0` (also always false), so the translation
agrees on every input. -/
def redoFn (history : List Snapshot) (index : Nat) : Nat :=
  if index < history.length - 1 then index + 1 else index

/-- JSON text of a string (the component's tokens and ids need no escaping). -/
def jsonStr (s : String) : String := "\"" ++ s ++ "\""

/-- JSON text of a token-or-null value (`JSON.stringify` renders an
`undefined` array element as `null`). -/
def jsonOpt : Option String → String
  | none => "null"
  | some s => jsonStr s

/-- JSON array text from the texts of the elements. -/
def jsonList (xs : List String) : String :=
  "[" ++ String.intercalate "," xs ++ "]"

/-- JSON text of one row object, as `JSON.stringify` renders it. -/
def serializeRow (r : RowState) : String :=
  "\x7b\"rowId\":" ++ jsonStr r.rowId ++
    ",\"palette\":" ++ jsonList (r.palette.map jsonOpt) ++
    ",\"slots\":\x7b" ++
    String.intercalate "," (r.slots.map (fun p => jsonStr p.1 ++ ":" ++ jsonOpt p.2)) ++
    "\x7d,\"trash\":" ++ jsonList (r.trash.map jsonOpt) ++ "\x7d"

/-- Serialized history `JSON.stringify(history)`: what `saveHistory` writes to localStorage. -/
def serializeHistory (h : List Snapshot) : String :=
  jsonList (h.map (fun snap => jsonList (snap.map serializeRow)))

/-- The component's state: the history log, the cursor, and the
localStorage cell for the single key (`none` = key absent). -/
structure ComponentState where
  history : List Snapshot
  index : Nat
  storage : Option String
deriving DecidableEq

/-- The persistence effect (source lines 62–64):
`useEffect(() => saveHistory(history), [history])` runs after every commit
that replaces the history array (including mount and `clearAll`) and writes
the serialized history to localStorage. -/
def persistEffect (s : ComponentState) : ComponentState :=
  { s with storage := some (serializeHistory s.history) }

/-- The synchronous body of `clearAll` (source lines 86–90): reset the log
to the single initial snapshot, cursor to 0, and remove the storage key. -/
def clearAllHandler (_ : ComponentState) : ComponentState :=
  { history := [initialRows], index := 0, storage := none }

/-- A full `clearAll` click: the handler body followed by the persistence
effect that the history change triggers. -/
def clearAllStep (s : ComponentState) : ComponentState :=
  persistEffect (clearAllHandler s)

/-- Loading `loadHistory` (source lines 24–32). `parse` stands for `JSON.parse`
composed with the unchecked `as RowState[][]` cast; `parse s = none` models
a thrown parse error, which the `catch` maps to `[]`. An absent key and the
empty string are both falsy (`if (!stored) return []`). -/
def loadHistory (parse : String → Option (List Snapshot))
    (stored : Option String) : List Snapshot :=
  match stored with
  | none => []
  | some s => if s = "" then [] else
      match parse s with
      | none => []
      | some h => h

/-- History initialisation (source lines 52–55):
`loaded.length ? loaded : [initialRows]`. -/
def initHistoryState (loaded : List Snapshot) : List Snapshot :=
  if loaded.length ≠ 0 then loaded else [initialRows]

/-- Component state right after mount (source lines 52–64): history loaded
from storage (with fallback), cursor at the last index, and one run of the
persistence effect. -/
def initComponent (parse : String → Option (List Snapshot))
    (stored : Option String) : ComponentState :=
  persistEffect
    { history := initHistoryState (loadHistory parse stored),
      index := (initHistoryState (loadHistory parse stored)).length - 1,
      storage := stored }

/-- One user drag-and-drop gesture, as the rendered UI permits it: drag a
token `fn` out of the palette or the trash of the row at `srcIdx` (the only
containers whose items carry `draggable`/`onDragStart`), and drop it onto
the target `dest` of the row at `dropIdx` (one of that row's rendered drop
zones: its palette, one of its slot keys, or its trash). -/
structure DropOp where
  srcIdx : Nat
  srcContainer : String
  fn : String
  dropIdx : Nat
  dest : String

/-- Whether the gesture is one the rendered UI can produce in this state:
the dragged token is actually rendered in the claimed source container, and
the drop target is actually rendered on the target row. -/
def opEnabled (rows : Snapshot) (op : DropOp) : Bool :=
  match rows.get? op.srcIdx, rows.get? op.dropIdx with
  | some src, some dst =>
    ((op.srcContainer = "palette" && decide (some op.fn ∈ src.palette)) ||
      (op.srcContainer = "trash" && decide (some op.fn ∈ src.trash))) &&
    (op.dest = "palette" || op.dest = "trash" || containsKey dst.slots op.dest)
  | _, _ => false

/-- The payload `handleDragStart` writes for the gesture: built from the
source row's id, the container name and the token. -/
def dragPayload (rows : Snapshot) (op : DropOp) : String :=
  mkPayload (((rows.get? op.srcIdx).map (fun r => r.rowId)).getD "")
    op.srcContainer op.fn

/-- One drag-start/drop round trip: `handleDragStart` writes the payload,
`handleDrop` reads it on the drop target. A rejected drop leaves the
snapshot unchanged (no `apply` commit). -/
def dropStep (rows : Snapshot) (op : DropOp) : Snapshot :=
  if opEnabled rows op then
    match handleDrop rows op.dropIdx op.dest (dragPayload rows op) with
    | .accepted newRows => newRows
    | _ => rows
  else rows

/-- The snapshot after a sequence of drag-and-drop gestures starting from
the initial state. -/
def runDrops (ops : List DropOp) : Snapshot :=
  ops.foldl dropStep initialRows

/-- The multiset of tokens present in a row: palette tokens, occupied slot
values, and trash tokens (undefined entries hold no token). -/
def rowTokens (r : RowState) : List String :=
  r.palette.filterMap id ++ (r.slots.map (fun p => p.2)).filterMap id ++
    r.trash.filterMap id

/-- The total number of occurrences of the token `t` across a row. -/
def rowCount (r : RowState) (t : String) : Nat := (rowTokens r).count t

/-- Well-formedness of a row reached by drop gestures from the initial
state: the original id, the original slot keys, and the conservation
invariant (its token multiset is exactly the initial full palette). -/
def RowWF (r : RowState) : Prop :=
  r.rowId = "row-1" ∧
  r.slots.map (fun p => p.1) = ["slot-1-1", "slot-1-2", "slot-1-3"] ∧
  List.Perm (rowTokens r) ALL_FUNCTIONS

/-- Well-formedness of a reachable snapshot. -/
def StateWF (rows : Snapshot) : Prop :=
  rows.length = 1 ∧ ∀ r ∈ rows, RowWF r

/-- The row state after the drop of `map` from the palette of `row-1` onto
`slot-1-1` of the initial state. -/
def rowAfterFirstDrop : RowState where
  rowId := "row-1"
  palette := [some "filter", some "reduce", some "compress"]
  slots := [("slot-1-1", some "map"), ("slot-1-2", none), ("slot-1-3", none)]
  trash := []

/-- A row holding two copies of the `map` token in its palette (reachable
only through exotic payloads; used to exercise the name-based removal). -/
def rowWithDupMap : RowState where
  rowId := "row-1"
  palette := [some "map", some "map", some "filter"]
  slots := [("slot-1-1", none), ("slot-1-2", none), ("slot-1-3", none)]
  trash := []

/-- The snapshot committed by the malformed drop of payload `"row-1:x"`
onto the palette of the initial state: the token field of the payload is
`undefined`, the trash filter removes nothing, and `undefined` is pushed
into the palette. -/
def rowsAfterBadDrop : Snapshot :=
  [{ rowId := "row-1",
     palette := ALL_FUNCTIONS.map some ++ [none],
     slots := [("slot-1-1", none), ("slot-1-2", none), ("slot-1-3", none)],
     trash := [] }]

/-! ## Helper lemmas: counting tokens in containers -/

lemma count_filterMap_id (l : List (Option String)) (t : String) :
    (l.filterMap id).count t = l.count (some t) := by
  induction l with
  | nil => rfl
  | cons a l ih =>
    cases a with
    | none => simpa [List.filterMap_cons] using ih
    | some s => simp [List.filterMap_cons, List.count_cons, ih]

lemma count_filter_ne (l : List (Option String)) (v w : Option String) :
    (l.filter (fun item => item ≠ v)).count w =
      if v = w then 0 else l.count w := by
  induction l with
  | nil => simp
  | cons a l ih =>
    rw [List.filter_cons]
    by_cases hav : a = v
    · rw [if_neg (by simp [hav]), ih]
      by_cases hwv : v = w
      · simp [hwv]
      · have haw : (a == w) = false :=
          beq_false_of_ne (fun hh => hwv ((hh ▸ hav).symm ▸ rfl))
        simp [hwv, List.count_cons, haw]
    · rw [if_pos (by simp [hav]), List.count_cons, ih, List.count_cons]
      by_cases hwv : v = w
      · have haw : (a == w) = false := by
          refine beq_false_of_ne (fun hh => hav ?_)
          rw [hh, ← hwv]
        simp [hwv, haw, hav]
      · simp [hwv]

lemma mem_tokens_of_mem_container {l : List (Option String)} {f : String}
    (h : some f ∈ l) : f ∈ l.filterMap id :=
  List.mem_filterMap.mpr ⟨some f, h, rfl⟩

/-! ## Helper lemmas: the JS-object association list -/

lemma containsKey_cons_true {p : String × Option String} {m : SlotState}
    {k : String} (h : containsKey (p :: m) k = true) (hp : p.1 ≠ k) :
    containsKey m k = true := by
  simpa [containsKey, hp] using h

lemma containsKey_cons_false {p : String × Option String} {m : SlotState}
    {k : String} (h : containsKey (p :: m) k = false) :
    p.1 ≠ k ∧ containsKey m k = false := by
  simpa [containsKey] using h

lemma map_setKeyFun_of_absent {m : SlotState} {k : String} (v : Option String)
    (h : containsKey m k = false) :
    m.map (fun p => if p.1 = k then (k, v) else p) = m := by
  induction m with
  | nil => rfl
  | cons p m ih =>
    obtain ⟨hp, h'⟩ := containsKey_cons_false h
    simp [List.map_cons, hp, ih h']

lemma keys_setKey {m : SlotState} {k : String} (v : Option String)
    (h : containsKey m k = true) :
    (setKey m k v).map (fun p => p.1) = m.map (fun p => p.1) := by
  simp only [setKey, h, if_true, List.map_map]
  refine List.map_congr_left (fun p _ => ?_)
  by_cases hp : p.1 = k <;> simp [hp, Function.comp]

lemma getVal_setKey_self (m : SlotState) (k : String) (v : Option String) :
    getVal (setKey m k v) k = v := by
  by_cases h : containsKey m k
  · rw [setKey, if_pos h]
    induction m with
    | nil => simp [containsKey] at h
    | cons p m ih =>
      by_cases hp : p.1 = k
      · simp [getVal, hp]
      · have h' : containsKey m k = true := containsKey_cons_true h hp
        simpa [getVal, hp] using ih h'
  · rw [setKey, if_neg h]
    induction m with
    | nil => simp [getVal]
    | cons p m ih =>
      obtain ⟨hp, h'⟩ := containsKey_cons_false (Bool.eq_false_iff.mpr h)
      simpa [getVal, hp] using ih (by simp [h'])

lemma getVal_setKey_ne (m : SlotState) {k k' : String} (v : Option String)
    (h : k' ≠ k) : getVal (setKey m k v) k' = getVal m k' := by
  by_cases hc : containsKey m k
  · rw [setKey, if_pos hc]
    induction m with
    | nil => simp
    | cons p m ih =>
      by_cases hp : p.1 = k
      · simp only [List.map_cons, if_pos hp, getVal]
        rw [if_neg (fun hk => h hk.symm), if_neg (by rw [hp]; exact fun hk => h hk.symm)]
        by_cases hc' : containsKey m k = true
        · exact ih hc'
        · rw [map_setKeyFun_of_absent v (Bool.eq_false_iff.mpr hc')]
      · have h' : containsKey m k = true := containsKey_cons_true hc hp
        simp only [List.map_cons, if_neg hp, getVal]
        by_cases hpk' : p.1 = k' <;> simp [hpk', ih h']
  · rw [setKey, if_neg hc]
    induction m with
    | nil => simp [getVal, Ne.symm h]
    | cons p m ih =>
      by_cases hpk' : p.1 = k'
      · simp [getVal, hpk']
      · obtain ⟨hp, h'⟩ := containsKey_cons_false (Bool.eq_false_iff.mpr hc)
        simpa [getVal, hpk'] using ih (by simp [h'])

lemma getVal_mem_vals {m : SlotState} {k : String} {s : String}
    (h : getVal m k = some s) : some s ∈ m.map (fun p => p.2) := by
  induction m with
  | nil => simp [getVal] at h
  | cons p m ih =>
    rw [getVal] at h
    by_cases hp : p.1 = k
    · rw [if_pos hp] at h
      exact List.mem_map.mpr ⟨p, by simp, h⟩
    · rw [if_neg hp] at h
      simpa using Or.inr (by simpa using ih h)

lemma mem_keys_of_containsKey {m : SlotState} {k : String}
    (h : containsKey m k = true) : k ∈ m.map (fun p => p.1) := by
  induction m with
  | nil => simp [containsKey] at h
  | cons q m ih =>
    by_cases hq : q.1 = k
    · simp [hq]
    · exact List.mem_cons_of_mem _ (ih (containsKey_cons_true h hq))

lemma count_vals_setKey (m : SlotState) (k : String) (v : Option String)
    (t : String) (hnd : (m.map (fun p => p.1)).Nodup)
    (hc : containsKey m k = true) :
    ((setKey m k v).map (fun p => p.2)).count (some t) +
        (if getVal m k = some t then 1 else 0) =
      (m.map (fun p => p.2)).count (some t) +
        (if v = some t then 1 else 0) := by
  induction m with
  | nil => simp [containsKey] at hc
  | cons p m ih =>
    by_cases hp : p.1 = k
    · have hknotm : containsKey m k = false := by
        rw [List.map_cons, List.nodup_cons] at hnd
        cases hmk : containsKey m k with
        | false => rfl
        | true =>
          exact absurd (show p.1 ∈ m.map (fun q => q.1) by
            rw [hp]; exact mem_keys_of_containsKey hmk) hnd.1
      have hset : setKey (p :: m) k v = (k, v) :: m := by
        rw [setKey, if_pos (by simp [containsKey, hp])]
        rw [List.map_cons, if_pos hp, map_setKeyFun_of_absent v hknotm]
      have hget : getVal (p :: m) k = p.2 := by rw [getVal, if_pos hp]
      rw [hset, hget]
      simp only [List.map_cons, List.count_cons]
      by_cases hvt : v = some t <;> by_cases hpt : p.2 = some t <;>
        simp [hvt, hpt]
    · have hc' : containsKey m k = true := containsKey_cons_true hc hp
      have hnd' : (m.map (fun q => q.1)).Nodup := by
        rw [List.map_cons, List.nodup_cons] at hnd
        exact hnd.2
      have hset : setKey (p :: m) k v = p :: setKey m k v := by
        rw [setKey, if_pos (by simp [containsKey, hc'])]
        rw [List.map_cons, if_neg hp, setKey, if_pos hc']
      have hget : getVal (p :: m) k = getVal m k := by rw [getVal, if_neg hp]
      rw [hset, hget]
      simp only [List.map_cons, List.count_cons]
      have := ih hnd' hc'
      by_cases hpt : p.2 = some t <;> simp [hpt] <;> omega

/-! ## Helper lemmas: the indexed row map of `handleDrop` -/

lemma length_mapWithIndex (f : Nat → RowState → RowState) :
    ∀ (i : Nat) (l : List RowState), (mapWithIndex f i l).length = l.length
  | _, [] => rfl
  | i, _ :: l => by simp [mapWithIndex, length_mapWithIndex f (i + 1) l]

lemma get?_mapWithIndex (f : Nat → RowState → RowState) :
    ∀ (i : Nat) (l : List RowState) (j : Nat),
      (mapWithIndex f i l).get? j = (l.get? j).map (f (i + j))
  | _, [], j => by simp [mapWithIndex]
  | i, r :: l, 0 => by simp [mapWithIndex]
  | i, r :: l, j + 1 => by
    simpa [mapWithIndex, Nat.add_assoc, Nat.add_comm 1 j] using
      get?_mapWithIndex f (i + 1) l j

/-! ## Conservation of the row token multiset -/

lemma count_rowTokens (r : RowState) (t : String) :
    (rowTokens r).count t =
      r.palette.count (some t) +
        ((r.slots.map (fun p => p.2)).count (some t) +
          r.trash.count (some t)) := by
  rw [rowTokens, List.count_append, List.count_append,
    count_filterMap_id, count_filterMap_id, count_filterMap_id,
    Nat.add_assoc]

lemma count_singleton_opt (x w : Option String) :
    ([x].count w) = if x = w then 1 else 0 := by
  by_cases h : x = w <;> simp [List.count_singleton, h]

lemma palette_not_slot : strStartsWith "palette" "slot-" = false := by decide

lemma trash_not_slot : strStartsWith "trash" "slot-" = false := by decide

lemma trash_ne_palette : ¬ ("trash" : String) = "palette" := by decide

lemma rowTokens_transformRow_perm (r : RowState) {sc dest : String}
    {f : String}
    (hperm : List.Perm (rowTokens r) ALL_FUNCTIONS)
    (hnd : (r.slots.map (fun p => p.1)).Nodup)
    (hsrc : (sc = "palette" ∧ some f ∈ r.palette) ∨
      (sc = "trash" ∧ some f ∈ r.trash))
    (hdest : strStartsWith dest "slot-" = true →
      containsKey r.slots dest = true) :
    List.Perm (rowTokens (transformRow r sc dest (some f))) ALL_FUNCTIONS := by
  have hcount := List.perm_iff_count.mp hperm
  have hfALL : f ∈ ALL_FUNCTIONS := by
    have hmem : f ∈ rowTokens r := by
      rcases hsrc with ⟨-, hm⟩ | ⟨-, hm⟩
      · exact List.mem_append.mpr (Or.inl (List.mem_append.mpr
          (Or.inl (mem_tokens_of_mem_container hm))))
      · exact List.mem_append.mpr (Or.inr (mem_tokens_of_mem_container hm))
    have hpos : 0 < (rowTokens r).count f := List.count_pos_iff.mpr hmem
    rw [hcount f] at hpos
    exact List.count_pos_iff.mp hpos
  have hfne : f ≠ "" := by
    intro h
    rw [h] at hfALL
    exact absurd hfALL (by decide)
  -- a slot can never hold the empty string in a conserved row
  have hexum : ∀ s, getVal r.slots dest = some s → s ≠ "" := by
    intro s hs h0
    have hm : some s ∈ r.slots.map (fun p => p.2) := getVal_mem_vals hs
    have h1 : 0 < ((r.slots.map (fun p => p.2)).filterMap id).count s :=
      List.count_pos_iff.mpr (mem_tokens_of_mem_container hm)
    have h2 : 0 < (rowTokens r).count s := by
      have := count_rowTokens r s
      rw [count_filterMap_id] at h1
      omega
    rw [hcount s, h0] at h2
    exact absurd h2 (by decide)
  have hone : (rowTokens r).count f = 1 := by
    rw [hcount f]
    exact List.count_eq_one_of_mem (by decide) hfALL
  rw [List.perm_iff_count]
  intro t
  rw [← hcount t]
  rcases hsrc with ⟨hsc, hm⟩ | ⟨hsc, hm⟩
  · -- source container: palette
    subst hsc
    have hP1 : r.palette.count (some f) = 1 ∧
        (r.slots.map (fun p => p.2)).count (some f) = 0 ∧
        r.trash.count (some f) = 0 := by
      have h1 := count_rowTokens r f
      have h2 : 0 < r.palette.count (some f) := List.count_pos_iff.mpr hm
      omega
    obtain ⟨hp1, hp2, hp3⟩ := hP1
    rw [show transformRow r "palette" dest (some f) =
        placeInto { r with
          palette := r.palette.filter (fun item => item ≠ some f) }
          "palette" dest (some f) from by
      simp [transformRow, removeFrom]]
    by_cases hd : strStartsWith dest "slot-" = true
    · by_cases ht : truthy (getVal r.slots dest) = true
      · -- occupied destination slot: place, push displaced token to palette
        rw [show placeInto { r with
            palette := r.palette.filter (fun item => item ≠ some f) }
            "palette" dest (some f) =
            { r with
              palette := r.palette.filter (fun item => item ≠ some f) ++
                [getVal r.slots dest],
              slots := setKey r.slots dest (some f) } from by
          simp [placeInto, hd, ht, palette_not_slot, getVal]]
        have e2 := count_vals_setKey r.slots dest (some f) t hnd (hdest hd)
        rw [count_rowTokens, count_rowTokens]
        simp only [List.count_append, count_filter_ne, count_singleton_opt]
        by_cases hft : f = t
        · rw [hft] at hp1 hp2 hp3 e2 ⊢
          by_cases het : getVal r.slots dest = some t
          · simp only [het, eq_self_iff_true, if_true] at e2 ⊢
            omega
          · simp only [if_neg het, eq_self_iff_true, if_true] at e2 ⊢
            omega
        · have hft' : ¬ (some f : Option String) = some t := by simp [hft]
          by_cases het : getVal r.slots dest = some t
          · simp only [het, if_neg hft', eq_self_iff_true, if_true] at e2 ⊢
            omega
          · simp only [if_neg het, if_neg hft'] at e2 ⊢
            omega
      · -- empty destination slot: just place the token
        have hexn : getVal r.slots dest = none := by
          cases hx : getVal r.slots dest with
          | none => rfl
          | some s =>
            rcases Decidable.em (s = "") with h0 | h0
            · exact absurd (hx.trans (by rw [h0])) (fun hh => hexum "" hh rfl)
            · rw [hx] at ht
              simp [truthy, h0] at ht
        rw [show placeInto { r with
            palette := r.palette.filter (fun item => item ≠ some f) }
            "palette" dest (some f) =
            { r with
              palette := r.palette.filter (fun item => item ≠ some f),
              slots := setKey r.slots dest (some f) } from by
          simp [placeInto, hd, ht]]
        have e2 := count_vals_setKey r.slots dest (some f) t hnd (hdest hd)
        rw [hexn] at e2
        simp only [reduceCtorEq, if_false] at e2
        rw [count_rowTokens, count_rowTokens]
        simp only [List.count_append, count_filter_ne]
        by_cases hft : f = t
        · rw [hft] at hp1 hp2 hp3 e2 ⊢
          simp only [eq_self_iff_true, if_true] at e2 ⊢
          omega
        · have hft' : ¬ (some f : Option String) = some t := by simp [hft]
          simp only [if_neg hft'] at e2 ⊢
          omega
    · -- destination is the palette or the trash
      by_cases hdp : dest = "palette"
      · rw [show placeInto { r with
            palette := r.palette.filter (fun item => item ≠ some f) }
            "palette" dest (some f) =
            { r with
              palette := r.palette.filter (fun item => item ≠ some f) ++
                [some f] } from by
          simp [placeInto, hd, hdp, palette_not_slot]]
        rw [count_rowTokens, count_rowTokens]
        simp only [List.count_append, count_filter_ne, count_singleton_opt]
        by_cases hft : f = t
        · rw [hft] at hp1 hp2 hp3 ⊢
          simp only [eq_self_iff_true, if_true]
          omega
        · have hft' : ¬ (some f : Option String) = some t := by simp [hft]
          simp only [if_neg hft']
          omega
      · rw [show placeInto { r with
            palette := r.palette.filter (fun item => item ≠ some f) }
            "palette" dest (some f) =
            { r with
              palette := r.palette.filter (fun item => item ≠ some f),
              trash := r.trash ++ [some f] } from by
          simp [placeInto, hd, hdp]]
        rw [count_rowTokens, count_rowTokens]
        simp only [List.count_append, count_filter_ne, count_singleton_opt]
        by_cases hft : f = t
        · rw [hft] at hp1 hp2 hp3 ⊢
          simp only [eq_self_iff_true, if_true]
          omega
        · have hft' : ¬ (some f : Option String) = some t := by simp [hft]
          simp only [if_neg hft']
          omega
  · -- source container: trash
    subst hsc
    have hP1 : r.trash.count (some f) = 1 ∧
        (r.slots.map (fun p => p.2)).count (some f) = 0 ∧
        r.palette.count (some f) = 0 := by
      have h1 := count_rowTokens r f
      have h2 : 0 < r.trash.count (some f) := List.count_pos_iff.mpr hm
      omega
    obtain ⟨hp1, hp2, hp3⟩ := hP1
    rw [show transformRow r "trash" dest (some f) =
        placeInto { r with
          trash := r.trash.filter (fun item => item ≠ some f) }
          "trash" dest (some f) from by
      simp [transformRow, removeFrom, trash_ne_palette, trash_not_slot]]
    by_cases hd : strStartsWith dest "slot-" = true
    · by_cases ht : truthy (getVal r.slots dest) = true
      · rw [show placeInto { r with
            trash := r.trash.filter (fun item => item ≠ some f) }
            "trash" dest (some f) =
            { r with
              trash := r.trash.filter (fun item => item ≠ some f) ++
                [getVal r.slots dest],
              slots := setKey r.slots dest (some f) } from by
          simp [placeInto, hd, ht, trash_not_slot, trash_ne_palette, getVal]]
        have e2 := count_vals_setKey r.slots dest (some f) t hnd (hdest hd)
        rw [count_rowTokens, count_rowTokens]
        simp only [List.count_append, count_filter_ne, count_singleton_opt]
        by_cases hft : f = t
        · rw [hft] at hp1 hp2 hp3 e2 ⊢
          by_cases het : getVal r.slots dest = some t
          · simp only [het, eq_self_iff_true, if_true] at e2 ⊢
            omega
          · simp only [if_neg het, eq_self_iff_true, if_true] at e2 ⊢
            omega
        · have hft' : ¬ (some f : Option String) = some t := by simp [hft]
          by_cases het : getVal r.slots dest = some t
          · simp only [het, if_neg hft', eq_self_iff_true, if_true] at e2 ⊢
            omega
          · simp only [if_neg het, if_neg hft'] at e2 ⊢
            omega
      · have hexn : getVal r.slots dest = none := by
          cases hx : getVal r.slots dest with
          | none => rfl
          | some s =>
            rcases Decidable.em (s = "") with h0 | h0
            · exact absurd (hx.trans (by rw [h0])) (fun hh => hexum "" hh rfl)
            · rw [hx] at ht
              simp [truthy, h0] at ht
        rw [show placeInto { r with
            trash := r.trash.filter (fun item => item ≠ some f) }
            "trash" dest (some f) =
            { r with
              trash := r.trash.filter (fun item => item ≠ some f),
              slots := setKey r.slots dest (some f) } from by
          simp [placeInto, hd, ht]]
        have e2 := count_vals_setKey r.slots dest (some f) t hnd (hdest hd)
        rw [hexn] at e2
        simp only [reduceCtorEq, if_false] at e2
        rw [count_rowTokens, count_rowTokens]
        simp only [List.count_append, count_filter_ne]
        by_cases hft : f = t
        · rw [hft] at hp1 hp2 hp3 e2 ⊢
          simp only [eq_self_iff_true, if_true] at e2 ⊢
          omega
        · have hft' : ¬ (some f : Option String) = some t := by simp [hft]
          simp only [if_neg hft'] at e2 ⊢
          omega
    · by_cases hdp : dest = "palette"
      · rw [show placeInto { r with
            trash := r.trash.filter (fun item => item ≠ some f) }
            "trash" dest (some f) =
            { r with
              trash := r.trash.filter (fun item => item ≠ some f),
              palette := r.palette ++ [some f] } from by
          simp [placeInto, hd, hdp, palette_not_slot]]
        rw [count_rowTokens, count_rowTokens]
        simp only [List.count_append, count_filter_ne, count_singleton_opt]
        by_cases hft : f = t
        · rw [hft] at hp1 hp2 hp3 ⊢
          simp only [eq_self_iff_true, if_true]
          omega
        · have hft' : ¬ (some f : Option String) = some t := by simp [hft]
          simp only [if_neg hft']
          omega
      · rw [show placeInto { r with
            trash := r.trash.filter (fun item => item ≠ some f) }
            "trash" dest (some f) =
            { r with
              trash := r.trash.filter (fun item => item ≠ some f) ++
                [some f] } from by
          simp [placeInto, hd, hdp]]
        rw [count_rowTokens, count_rowTokens]
        simp only [List.count_append, count_filter_ne, count_singleton_opt]
        by_cases hft : f = t
        · rw [hft] at hp1 hp2 hp3 ⊢
          simp only [eq_self_iff_true, if_true]
          omega
        · have hft' : ¬ (some f : Option String) = some t := by simp [hft]
          simp only [if_neg hft']
          omega

/-! ## Frame facts about the drop transformation -/

lemma rowId_transformRow (r : RowState) (sc dest : String)
    (fn : Option String) : (transformRow r sc dest fn).rowId = r.rowId := by
  simp only [transformRow, removeFrom, placeInto]
  split_ifs <;> rfl

lemma keys_transformRow (r : RowState) {sc dest : String} (fn : Option String)
    (hsc : sc = "palette" ∨ sc = "trash")
    (hdest : strStartsWith dest "slot-" = true →
      containsKey r.slots dest = true) :
    (transformRow r sc dest fn).slots.map (fun p => p.1) =
      r.slots.map (fun p => p.1) := by
  have hscslot : strStartsWith sc "slot-" = false := by
    rcases hsc with h | h <;> rw [h] <;> decide
  have hr1 : (removeFrom r sc fn).slots = r.slots := by
    rcases hsc with h | h <;> rw [h] <;>
      simp [removeFrom, trash_ne_palette, trash_not_slot]
  simp only [transformRow, placeInto, hr1]
  by_cases hd : strStartsWith dest "slot-" = true
  · rw [if_pos hd]
    by_cases ht : truthy (getVal r.slots dest) = true
    · rw [if_pos ht, if_neg (by simp [hscslot])]
      rcases hsc with h | h <;> rw [h]
      · simp [keys_setKey _ (hdest hd)]
      · simp [trash_ne_palette, keys_setKey _ (hdest hd)]
    · rw [if_neg ht]
      simp [keys_setKey _ (hdest hd)]
  · rw [if_neg hd]
    by_cases hdp : dest = "palette" <;> simp [hdp]

/-! ## Reachability by UI drop sequences and the conservation invariant -/

lemma jsSplit_payload :
    ∀ sc ∈ (["palette", "trash"] : List String), ∀ f ∈ ALL_FUNCTIONS,
      jsSplit (mkPayload "row-1" sc f) = ["row-1", sc, "", f] := by decide

lemma fn_mem_ALL {r : RowState} {f : String}
    (hperm : List.Perm (rowTokens r) ALL_FUNCTIONS)
    (hm : f ∈ rowTokens r) : f ∈ ALL_FUNCTIONS := by
  have hpos : 0 < (rowTokens r).count f := List.count_pos_iff.mpr hm
  rw [List.perm_iff_count.mp hperm f] at hpos
  exact List.count_pos_iff.mp hpos

lemma stateWF_initial : StateWF initialRows := by
  refine ⟨rfl, ?_⟩
  intro r hr
  simp only [initialRows, List.mem_singleton] at hr
  subst hr
  exact ⟨rfl, rfl, by decide⟩

lemma handleDrop_some (rows : Snapshot) (rowIdx : Nat) (dest raw : String)
    (row : RowState) (hr : ¬ raw = "")
    (hg : rows.get? rowIdx = some row) :
    handleDrop rows rowIdx dest raw =
      if row.rowId ≠ (jsSplit raw).headD "" ∨
          (jsSplit raw).get? 1 = some dest then DropResult.rejected
      else
        match (jsSplit raw).get? 1 with
        | none => DropResult.crash
        | some sc => DropResult.accepted (mapWithIndex (fun idx r =>
            if idx ≠ rowIdx then r
            else transformRow r sc dest ((jsSplit raw).get? 3)) 0 rows) := by
  unfold handleDrop
  rw [if_neg hr, hg]

lemma handleDrop_payload (rows : Snapshot) (rowIdx : Nat)
    (dest rid sc f : String) (row : RowState)
    (hg : rows.get? rowIdx = some row)
    (hsplit : jsSplit (mkPayload rid sc f) = [rid, sc, "", f]) :
    handleDrop rows rowIdx dest (mkPayload rid sc f) =
      if row.rowId ≠ rid ∨ sc = dest then .rejected
      else .accepted (mapWithIndex (fun idx r =>
        if idx ≠ rowIdx then r else transformRow r sc dest (some f))
        0 rows) := by
  have hraw : ¬ mkPayload rid sc f = "" := by
    intro hx
    have hlen4 := congrArg List.length hsplit
    rw [hx] at hlen4
    rw [show (jsSplit "").length = 1 from by decide] at hlen4
    simp at hlen4
  unfold handleDrop
  rw [if_neg hraw, hg]
  simp only [hsplit, List.headD_cons, List.get?_cons_succ,
    List.get?_cons_zero, Option.some.injEq]

lemma stateWF_dropStep (rows : Snapshot) (op : DropOp)
    (h : StateWF rows) : StateWF (dropStep rows op) := by
  obtain ⟨hlen, hwf⟩ := h
  rw [dropStep]
  by_cases he : opEnabled rows op = true
  · rw [if_pos he]
    cases hsg : rows.get? op.srcIdx with
    | none => unfold opEnabled at he; rw [hsg] at he; simp at he
    | some src =>
      cases hdg : rows.get? op.dropIdx with
      | none => unfold opEnabled at he; rw [hsg, hdg] at he; simp at he
      | some dropRow =>
        unfold opEnabled at he
        rw [hsg, hdg] at he
        simp only [Bool.and_eq_true, Bool.or_eq_true, decide_eq_true_eq]
          at he
        obtain ⟨hesrc, hedest⟩ := he
        have hsrcmem : src ∈ rows := List.get?_mem hsg
        have hdropmem : dropRow ∈ rows := List.get?_mem hdg
        obtain ⟨hid, hkeys, hperm⟩ := hwf src hsrcmem
        have hsi : op.srcIdx < rows.length := by
          by_contra hx
          rw [List.get?_eq_none.mpr (Nat.le_of_not_lt hx)] at hsg
          cases hsg
        have hdi : op.dropIdx < rows.length := by
          by_contra hx
          rw [List.get?_eq_none.mpr (Nat.le_of_not_lt hx)] at hdg
          cases hdg
        have hs0 : op.srcIdx = 0 := by omega
        have hd0 : op.dropIdx = 0 := by omega
        have hsame : src = dropRow := by
          rw [hs0] at hsg
          rw [hd0] at hdg
          exact Option.some.inj (hsg.symm.trans hdg)
        have hscs : op.srcContainer ∈ (["palette", "trash"] : List String) := by
          rcases hesrc with ⟨h1, -⟩ | ⟨h1, -⟩ <;> simp [h1]
        have hfALL : op.fn ∈ ALL_FUNCTIONS := by
          refine fn_mem_ALL hperm ?_
          rcases hesrc with ⟨-, h2⟩ | ⟨-, h2⟩
          · exact List.mem_append.mpr (Or.inl (List.mem_append.mpr
              (Or.inl (mem_tokens_of_mem_container h2))))
          · exact List.mem_append.mpr (Or.inr
              (mem_tokens_of_mem_container h2))
        have hsplit := jsSplit_payload op.srcContainer hscs op.fn hfALL
        have hpay : dragPayload rows op =
            mkPayload "row-1" op.srcContainer op.fn := by
          rw [dragPayload, hsg]
          simp [hid]
        rw [hpay]
        rw [handleDrop_payload rows op.dropIdx op.dest "row-1"
          op.srcContainer op.fn dropRow hdg hsplit]
        have hdropid : dropRow.rowId = "row-1" :=
          (hwf dropRow hdropmem).1
        by_cases hscd : op.srcContainer = op.dest
        · rw [if_pos (Or.inr hscd)]
          exact ⟨hlen, hwf⟩
        · rw [if_neg (by simp [hdropid, hscd])]
          constructor
          · rw [length_mapWithIndex]
            exact hlen
          · intro r' hr'
            obtain ⟨j, hj⟩ := List.mem_iff_get?.mp hr'
            rw [get?_mapWithIndex] at hj
            have hjlen : j < rows.length := by
              by_contra hx
              rw [List.get?_eq_none.mpr (Nat.le_of_not_lt hx)] at hj
              cases hj
            have hj0 : j = 0 := by omega
            rw [hj0, hd0, Nat.add_zero] at hj
            rw [hs0] at hsg
            rw [hsg] at hj
            simp only [Option.map_some', Option.some.injEq,
              ne_eq, not_true_eq_false, if_false] at hj
            have hdest' : strStartsWith op.dest "slot-" = true →
                containsKey src.slots op.dest = true := by
              intro hds
              rcases hedest with (h1 | h1) | h1
              · rw [h1] at hds
                exact absurd hds (by simp [palette_not_slot])
              · rw [h1] at hds
                exact absurd hds (by simp [trash_not_slot])
              · rw [hsame]; exact h1
            have hsrc' : (op.srcContainer = "palette" ∧
                some op.fn ∈ src.palette) ∨
                (op.srcContainer = "trash" ∧ some op.fn ∈ src.trash) := hesrc
            refine hj ▸ ⟨?_, ?_, ?_⟩
            · rw [rowId_transformRow]; exact hid
            · rw [keys_transformRow src (some op.fn)
                (by rcases hsrc' with ⟨h1, -⟩ | ⟨h1, -⟩ <;> simp [h1])
                hdest']
              exact hkeys
            · exact rowTokens_transformRow_perm src hperm
                (hkeys ▸ (by decide : (["slot-1-1", "slot-1-2",
                  "slot-1-3"] : List String).Nodup)) hsrc' hdest'
  · rw [if_neg he]
    exact ⟨hlen, hwf⟩

lemma stateWF_foldl (ops : List DropOp) :
    ∀ rows, StateWF rows → StateWF (ops.foldl dropStep rows) := by
  induction ops with
  | nil => intro rows h; exact h
  | cons op ops ih =>
    intro rows h
    exact ih (dropStep rows op) (stateWF_dropStep rows op h)

lemma stateWF_runDrops (ops : List DropOp) : StateWF (runDrops ops) :=
  stateWF_foldl ops initialRows stateWF_initial

/-! ## Claim theorems -/

/-- C1: for every sequence of drag-and-drop gestures starting from the
initial state, the multiset of tokens of every row of the reached snapshot
(palette, occupied slots and trash together) is exactly the initial full
token set (map, filter, reduce, compress): no token is duplicated or
lost, and every accepted drop transition preserves this per-row
conservation invariant. -/
theorem drop_sequences_conserve_row_tokens :
    ∀ ops : List DropOp, ∀ r ∈ runDrops ops,
      List.Perm (rowTokens r) ALL_FUNCTIONS := by
  intro ops r hr
  exact ((stateWF_runDrops ops).2 r hr).2.2

/-- Witness for C1 at the one-gesture sequence dropping `map` onto
`slot-1-1`. -/
theorem drop_sequences_conserve_row_tokens_witness :
    List.Perm (rowTokens rowAfterFirstDrop) ALL_FUNCTIONS :=
  drop_sequences_conserve_row_tokens
    [{ srcIdx := 0, srcContainer := "palette", fn := "map",
       dropIdx := 0, dest := "slot-1-1" }]
    rowAfterFirstDrop (by decide)

/-- C2 counterexample: the claim says a drop transition is rejected (and
never crashes) exactly when the payload is malformed or empty, the row
mismatches, or source container = destination. At the concrete malformed
payload `"row-1:x"` (not of the `handleDragStart` shape) dropped on the
palette of the initial state, the transition is NOT rejected — a new
snapshot is produced — and at the malformed payload `"row-1"` the handler
throws instead of silently ignoring the drop. -/
theorem malformed_payload_not_rejected :
    ¬ WellFormedPayload "row-1:x" ∧
    handleDrop initialRows 0 "palette" "row-1:x" ≠ DropResult.rejected ∧
    (∃ rows', handleDrop initialRows 0 "palette" "row-1:x" =
      DropResult.accepted rows' ∧ rows' ≠ initialRows) ∧
    handleDrop initialRows 0 "palette" "row-1" = DropResult.crash := by
  refine ⟨?_, by decide, ?_, by decide⟩
  · rintro ⟨a, b, c, h⟩
    rw [show jsSplit "row-1:x" = ["row-1", "x"] from by decide] at h
    have hl := congrArg List.length h
    simp at hl
  · exact ⟨rowsAfterBadDrop, by decide, by decide⟩

/-- C2 amended: with a valid row index, a drop transition is rejected (no
snapshot produced) exactly when the raw payload is empty, or the first
`:`-field of the payload differs from the destination row's id, or the
second `:`-field exists and equals the destination container. (Malformed
payloads that pass these guards are not silently ignored: they either
crash or commit a state change.) -/
theorem drop_rejection_guards (rows : Snapshot) (rowIdx : Nat)
    (dest raw : String) (row : RowState)
    (hg : rows.get? rowIdx = some row) :
    handleDrop rows rowIdx dest raw = DropResult.rejected ↔
      (raw = "" ∨ (jsSplit raw).headD "" ≠ row.rowId ∨
        (jsSplit raw).get? 1 = some dest) := by
  by_cases hr : raw = ""
  · simp [handleDrop, hr]
  · rw [handleDrop_some rows rowIdx dest raw row hr hg]
    by_cases hguard : row.rowId ≠ (jsSplit raw).headD "" ∨
        (jsSplit raw).get? 1 = some dest
    · rw [if_pos hguard]
      constructor
      · intro _
        rcases hguard with h | h
        · exact Or.inr (Or.inl (Ne.symm h))
        · exact Or.inr (Or.inr h)
      · intro _
        rfl
    · rw [if_neg hguard]
      push_neg at hguard
      obtain ⟨h1, h2⟩ := hguard
      cases hc : (jsSplit raw).get? 1 with
      | none =>
        exact iff_of_false (by simp)
          (by push_neg; exact ⟨hr, h1.symm, by simp⟩)
      | some sc =>
        exact iff_of_false (by simp)
          (by push_neg; rw [hc] at h2; exact ⟨hr, h1.symm, h2⟩)

/-- Witness for C2 amended on the initial state: the payload written for
dragging `map` out of the palette is not rejected when dropped on a slot. -/
theorem drop_rejection_guards_witness :
    initialRows.get? 0 = some initRow ∧
    (handleDrop initialRows 0 "slot-1-1" "row-1:palette::map" =
        DropResult.rejected ↔
      ("row-1:palette::map" = "" ∨
        (jsSplit "row-1:palette::map").headD "" ≠ initRow.rowId ∨
        (jsSplit "row-1:palette::map").get? 1 = some "slot-1-1")) :=
  ⟨by decide, drop_rejection_guards initialRows 0 "slot-1-1"
    "row-1:palette::map" initRow (by decide)⟩

/-- C3 counterexample: after a Clear click the persisted local-storage
history is NOT left empty. The `clearAll` handler removes the key, but the
persistence effect (`useEffect` on `[history]`) immediately re-saves the
new single-snapshot history, so the stored cell holds the serialized
initial history. -/
theorem clear_does_not_leave_storage_empty :
    (clearAllStep { history := [initialRows], index := 0, storage := none }).storage ≠ none := by
  decide

/-- C3 amended: Clear from any state replaces the whole log with the
single-element log holding the canonical initial snapshot and sets the
cursor to 0; the handler itself removes the persisted key, but the
persistence effect then rewrites storage with the serialized
single-snapshot history, so the net persisted state is the serialized
initial history rather than an empty cell. -/
theorem clear_resets_history_and_storage (s : ComponentState) :
    clearAllStep s = { history := [initialRows], index := 0, storage := some (serializeHistory [initialRows]) } ∧
    (clearAllHandler s).storage = none :=
  ⟨rfl, rfl⟩

/-- C4: committing a new snapshot truncates the log to indices `[0, c]`,
appends the new snapshot, and moves the cursor to the new last index
`c + 1`; hence every snapshot that was beyond the cursor is discarded from
the log and redo is unavailable from the committed state. -/
theorem commit_truncates_and_advances (history : List Snapshot)
    (index : Nat) (s : Snapshot) (h : index < history.length) :
    applyFn history index s = (history.take (index + 1) ++ [s], index + 1) ∧
    (applyFn history index s).1.length = index + 2 ∧
    (applyFn history index s).2 = (applyFn history index s).1.length - 1 ∧
    redoFn (applyFn history index s).1 (applyFn history index s).2 =
      (applyFn history index s).2 := by
  have hlen : (history.take (index + 1) ++ [s]).length = index + 2 := by
    simp [List.length_take]
    omega
  refine ⟨rfl, hlen, ?_, ?_⟩
  · simp only [applyFn, hlen]
    omega
  · simp only [applyFn, redoFn, hlen]
    rw [if_neg (by omega)]

/-- Witness for C4 after one undo on a two-snapshot history. -/
theorem commit_truncates_and_advances_witness :
    (0 : Nat) < ([initialRows, [rowAfterFirstDrop]] : List Snapshot).length ∧
    (applyFn [initialRows, [rowAfterFirstDrop]] 0 [initRow] =
      (([initialRows, [rowAfterFirstDrop]] : List Snapshot).take 1 ++ [[initRow]], 1) ∧
    (applyFn [initialRows, [rowAfterFirstDrop]] 0 [initRow]).1.length = 2 ∧
    (applyFn [initialRows, [rowAfterFirstDrop]] 0 [initRow]).2 =
      (applyFn [initialRows, [rowAfterFirstDrop]] 0 [initRow]).1.length - 1 ∧
    redoFn (applyFn [initialRows, [rowAfterFirstDrop]] 0 [initRow]).1
        (applyFn [initialRows, [rowAfterFirstDrop]] 0 [initRow]).2 =
      (applyFn [initialRows, [rowAfterFirstDrop]] 0 [initRow]).2) :=
  ⟨by decide,
    commit_truncates_and_advances [initialRows, [rowAfterFirstDrop]] 0
      [initRow] (by decide)⟩

/-- C5: after committing one mutation from a valid state, undo moves the
cursor back to the pre-mutation snapshot (structurally equal row list),
redo right after that undo moves it to the mutated snapshot again, undo is
a no-op at cursor 0, and redo is a no-op at the last index. -/
theorem undo_redo_roundtrip (history : List Snapshot) (index : Nat)
    (s : Snapshot) (h : index < history.length) :
    undoFn (applyFn history index s).2 = index ∧
    (applyFn history index s).1.get? index = history.get? index ∧
    redoFn (applyFn history index s).1 index = (applyFn history index s).2 ∧
    (applyFn history index s).1.get? (applyFn history index s).2 = some s ∧
    undoFn 0 = 0 ∧
    (∀ hist : List Snapshot, redoFn hist (hist.length - 1) =
      hist.length - 1) := by
  have htake : (history.take (index + 1)).length = index + 1 := by
    simp [List.length_take]
    omega
  refine ⟨by simp [undoFn, applyFn], ?_, ?_, ?_, by simp [undoFn], ?_⟩
  · show (history.take (index + 1) ++ [s]).get? index = history.get? index
    rw [List.get?_append (by omega)]
    exact List.get?_take (by omega)
  · show redoFn (history.take (index + 1) ++ [s]) index = index + 1
    rw [redoFn, if_pos (by simp [htake])]
  · show (history.take (index + 1) ++ [s]).get? (index + 1) = some s
    rw [List.get?_append_right (by omega)]
    simp [htake]
  · intro hist
    rw [redoFn, if_neg (by omega)]

/-- Witness for C5 committing a drop mutation on the initial history. -/
theorem undo_redo_roundtrip_witness :
    (0 : Nat) < ([initialRows] : List Snapshot).length ∧
    (undoFn (applyFn [initialRows] 0 [rowAfterFirstDrop]).2 = 0 ∧
    (applyFn [initialRows] 0 [rowAfterFirstDrop]).1.get? 0 =
      ([initialRows] : List Snapshot).get? 0 ∧
    redoFn (applyFn [initialRows] 0 [rowAfterFirstDrop]).1 0 =
      (applyFn [initialRows] 0 [rowAfterFirstDrop]).2 ∧
    (applyFn [initialRows] 0 [rowAfterFirstDrop]).1.get?
        (applyFn [initialRows] 0 [rowAfterFirstDrop]).2 =
      some [rowAfterFirstDrop] ∧
    undoFn 0 = 0 ∧
    (∀ hist : List Snapshot, redoFn hist (hist.length - 1) =
      hist.length - 1)) :=
  ⟨by decide, undo_redo_roundtrip [initialRows] 0 [rowAfterFirstDrop]
    (by decide)⟩

/-- C8: loading persisted history is total (never throws: every parse
failure is caught), and for absent, empty or unparseable stored content it
yields the empty list, so initialisation falls back to the canonical
single initial snapshot. -/
theorem load_fallback (parse : String → Option (List Snapshot))
    (stored : Option String)
    (h : stored = none ∨ stored = some "" ∨
      ∃ s, stored = some s ∧ parse s = none) :
    loadHistory parse stored = [] ∧
    initHistoryState (loadHistory parse stored) = [initialRows] := by
  have h1 : loadHistory parse stored = [] := by
    rcases h with rfl | rfl | ⟨s, rfl, hp⟩
    · rfl
    · simp [loadHistory]
    · by_cases hs : s = "" <;> simp [loadHistory, hs, hp]
  rw [h1]
  exact ⟨rfl, by simp [initHistoryState]⟩

/-- Witness for C8 with a parser that fails on the stored garbage. -/
theorem load_fallback_witness :
    ((some "garbage" : Option String) = none ∨
      (some "garbage" : Option String) = some "" ∨
      ∃ s, (some "garbage" : Option String) = some s ∧
        (fun _ : String => (none : Option (List Snapshot))) s = none) ∧
    (loadHistory (fun _ => none) (some "garbage") = [] ∧
      initHistoryState (loadHistory (fun _ => none) (some "garbage")) =
        [initialRows]) :=
  ⟨Or.inr (Or.inr ⟨"garbage", rfl, rfl⟩),
    load_fallback (fun _ => none) (some "garbage")
      (Or.inr (Or.inr ⟨"garbage", rfl, rfl⟩))⟩

/-- C9: when a non-empty history of `n` snapshots is loaded, component
initialisation keeps exactly that snapshot list and puts the cursor at
`n - 1`, so the displayed state is the last persisted snapshot and redo is
initially a no-op; no persisted cursor exists in the model, so no undo
position from a previous session can be restored. -/
theorem init_cursor_last (parse : String → Option (List Snapshot))
    (stored : Option String)
    (hn : 0 < (loadHistory parse stored).length) :
    (initComponent parse stored).history = loadHistory parse stored ∧
    (initComponent parse stored).index =
      (loadHistory parse stored).length - 1 ∧
    (initComponent parse stored).history.get?
        (initComponent parse stored).index =
      (loadHistory parse stored).getLast? ∧
    redoFn (initComponent parse stored).history
        (initComponent parse stored).index =
      (initComponent parse stored).index := by
  have hh : initHistoryState (loadHistory parse stored) =
      loadHistory parse stored := by
    rw [initHistoryState, if_pos (by omega)]
  refine ⟨?_, ?_, ?_, ?_⟩
  · simp [initComponent, persistEffect, hh]
  · simp [initComponent, persistEffect, hh]
  · simp only [initComponent, persistEffect, hh]
    rw [List.getLast?_eq_get?]
  · simp only [initComponent, persistEffect, hh, redoFn]
    rw [if_neg (by omega)]

/-- Witness for C9 on a two-snapshot persisted history. -/
theorem init_cursor_last_witness :
    0 < (loadHistory (fun _ => some [initialRows, [rowAfterFirstDrop]])
      (some "x")).length ∧
    ((initComponent (fun _ => some [initialRows, [rowAfterFirstDrop]])
        (some "x")).index =
      (loadHistory (fun _ => some [initialRows, [rowAfterFirstDrop]])
        (some "x")).length - 1) :=
  ⟨by decide,
    (init_cursor_last (fun _ => some [initialRows, [rowAfterFirstDrop]])
      (some "x") (by decide)).2.1⟩

/-- C6: for an accepted drop onto a slot already occupied by a token `t`,
the dragged token `f` replaces `t` in the destination slot and `t` moves to
where `f` came from: into the source slot when the source is a slot, 
appended to the palette when the source is the palette, and appended to
the trash otherwise; when the destination slot is empty the dragged token
is simply placed there (nothing else changes beyond the removal). -/
theorem occupied_slot_swap (r : RowState) (sc dest : String) (f t : String)
    (hds : strStartsWith dest "slot-" = true)
    (hocc : getVal r.slots dest = some t) (ht : t ≠ "")
    (hne : sc ≠ dest) :
    getVal (transformRow r sc dest (some f)).slots dest = some f ∧
    (strStartsWith sc "slot-" = true →
      getVal (transformRow r sc dest (some f)).slots sc = some t) ∧
    (sc = "palette" →
      (transformRow r sc dest (some f)).palette =
        r.palette.filter (fun item => item ≠ some f) ++ [some t] ∧
      (transformRow r sc dest (some f)).trash = r.trash) ∧
    (strStartsWith sc "slot-" = false → sc ≠ "palette" →
      (transformRow r sc dest (some f)).trash =
        r.trash.filter (fun item => item ≠ some f) ++ [some t] ∧
      (transformRow r sc dest (some f)).palette = r.palette) ∧
    (∀ r2 : RowState, truthy (getVal (removeFrom r2 sc (some f)).slots dest) = false →
      getVal (transformRow r2 sc dest (some f)).slots dest = some f ∧
      (transformRow r2 sc dest (some f)).palette =
        (removeFrom r2 sc (some f)).palette ∧
      (transformRow r2 sc dest (some f)).trash =
        (removeFrom r2 sc (some f)).trash) := by
  have httr : truthy (some t) = true := by simp [truthy, ht]
  refine ⟨?_, ?_, ?_, ?_, ?_⟩
  · -- the dragged token lands in the destination slot
    by_cases hscslot : strStartsWith sc "slot-" = true
    · have hscpal : ¬ sc = "palette" := by
        intro hx
        rw [hx] at hscslot
        exact absurd hscslot (by decide)
      have hr1 : (removeFrom r sc (some f)).slots = setKey r.slots sc none := by
        simp [removeFrom, hscpal, hscslot]
      have hex : getVal (removeFrom r sc (some f)).slots dest = some t := by
        rw [hr1, getVal_setKey_ne _ _ (Ne.symm hne)]
        exact hocc
      simp only [transformRow, placeInto, hds, if_true, hex, httr, hscslot]
      rw [getVal_setKey_ne _ _ (Ne.symm hne), getVal_setKey_self]
    · by_cases hscpal : sc = "palette"
      · have hex : getVal (removeFrom r sc (some f)).slots dest = some t := by
          simp [removeFrom, hscpal, hocc]
        simp only [transformRow, placeInto, hds, if_true, hex, httr, hscslot]
        simp only [hscpal, if_true, if_false, Bool.false_eq_true]
        rw [getVal_setKey_self]
      · have hr1 : (removeFrom r sc (some f)).slots = r.slots := by
          simp [removeFrom, hscpal, hscslot]
        have hex : getVal (removeFrom r sc (some f)).slots dest = some t := by
          rw [hr1]
          exact hocc
        simp only [transformRow, placeInto, hds, if_true, hex, httr,
          hscslot, hscpal, if_false, Bool.false_eq_true]
        simp only [hr1]
        rw [getVal_setKey_self]
  · -- slot → slot: direct swap
    intro hscslot
    have hscpal : ¬ sc = "palette" := by
      intro hx
      rw [hx] at hscslot
      exact absurd hscslot (by decide)
    have hr1 : (removeFrom r sc (some f)).slots = setKey r.slots sc none := by
      simp [removeFrom, hscpal, hscslot]
    have hex : getVal (removeFrom r sc (some f)).slots dest = some t := by
      rw [hr1, getVal_setKey_ne _ _ (Ne.symm hne)]
      exact hocc
    simp only [transformRow, placeInto, hds, if_true, hex, httr, hscslot]
    rw [getVal_setKey_self]
  · -- palette → slot: displaced token appended to the palette
    intro hscpal
    subst hscpal
    have hr1s : (removeFrom r "palette" (some f)).slots = r.slots := by
      simp [removeFrom]
    have hr1p : (removeFrom r "palette" (some f)).palette =
        r.palette.filter (fun item => item ≠ some f) := by
      simp [removeFrom]
    have hr1t : (removeFrom r "palette" (some f)).trash = r.trash := by
      simp [removeFrom]
    have hex : getVal (removeFrom r "palette" (some f)).slots dest =
        some t := by
      rw [hr1s]
      exact hocc
    constructor
    · simp only [transformRow, placeInto, hds, if_true, hex, httr,
        palette_not_slot, Bool.false_eq_true, if_false]
      simp [hr1p]
    · simp only [transformRow, placeInto, hds, if_true, hex, httr,
        palette_not_slot, Bool.false_eq_true, if_false]
      simp [hr1t]
  · -- any other source: displaced token appended to the trash
    intro hscslot hscpal
    have hr1s : (removeFrom r sc (some f)).slots = r.slots := by
      simp [removeFrom, hscpal, hscslot]
    have hr1p : (removeFrom r sc (some f)).palette = r.palette := by
      simp [removeFrom, hscpal, hscslot]
    have hr1t : (removeFrom r sc (some f)).trash =
        r.trash.filter (fun item => item ≠ some f) := by
      simp [removeFrom, hscpal, hscslot]
    have hex : getVal (removeFrom r sc (some f)).slots dest = some t := by
      rw [hr1s]
      exact hocc
    constructor
    · simp only [transformRow, placeInto, hds, if_true, hex, httr,
        hscslot, Bool.false_eq_true, if_false, hscpal]
      simp [hr1t]
    · simp only [transformRow, placeInto, hds, if_true, hex, httr,
        hscslot, Bool.false_eq_true, if_false, hscpal]
      simp [hr1p]
  · -- empty destination slot: the token is simply placed there
    intro r2 hf2
    refine ⟨?_, ?_, ?_⟩
    · simp only [transformRow, placeInto, hds, if_true, hf2,
        Bool.false_eq_true, if_false]
      rw [getVal_setKey_self]
    · simp only [transformRow, placeInto, hds, if_true, hf2,
        Bool.false_eq_true, if_false]
    · simp only [transformRow, placeInto, hds, if_true, hf2,
        Bool.false_eq_true, if_false]

/-- Witness for C6: dropping `filter` from the palette onto `slot-1-1`
occupied by `map` swaps `map` back into the palette. -/
theorem occupied_slot_swap_witness :
    getVal rowAfterFirstDrop.slots "slot-1-1" = some "map" ∧
    getVal (transformRow rowAfterFirstDrop "palette" "slot-1-1"
      (some "filter")).slots "slot-1-1" = some "filter" ∧
    ((transformRow rowAfterFirstDrop "palette" "slot-1-1"
        (some "filter")).palette =
      rowAfterFirstDrop.palette.filter (fun item => item ≠ some "filter") ++
        [some "map"] ∧
      (transformRow rowAfterFirstDrop "palette" "slot-1-1"
        (some "filter")).trash = rowAfterFirstDrop.trash) :=
  ⟨by decide,
    (occupied_slot_swap rowAfterFirstDrop "palette" "slot-1-1" "filter"
      "map" (by decide) (by decide) (by decide) (by decide)).1,
    (occupied_slot_swap rowAfterFirstDrop "palette" "slot-1-1" "filter"
      "map" (by decide) (by decide) (by decide) (by decide)).2.2.1 rfl⟩

/-- C7: an accepted drop modifies only the row at the matched index; the
resulting snapshot has the same number of rows and every other row is
equal in value to its counterpart in the previous snapshot. -/
theorem drop_modifies_only_matched_row (rows : Snapshot) (rowIdx : Nat)
    (dest raw : String) (rows' : Snapshot)
    (hacc : handleDrop rows rowIdx dest raw = DropResult.accepted rows') :
    rows'.length = rows.length ∧
    ∀ i, i ≠ rowIdx → rows'.get? i = rows.get? i := by
  cases hg : rows.get? rowIdx with
  | none =>
    have hout : handleDrop rows rowIdx dest raw = DropResult.rejected ∨
        handleDrop rows rowIdx dest raw = DropResult.crash := by
      unfold handleDrop
      by_cases hr : raw = ""
      · rw [if_pos hr]
        exact Or.inl rfl
      · rw [if_neg hr, hg]
        exact Or.inr rfl
    rcases hout with h | h <;> rw [h] at hacc <;> exact absurd hacc (by simp)
  | some row =>
    by_cases hr : raw = ""
    · unfold handleDrop at hacc
      rw [if_pos hr] at hacc
      exact absurd hacc (by simp)
    · rw [handleDrop_some rows rowIdx dest raw row hr hg] at hacc
      by_cases hguard : row.rowId ≠ (jsSplit raw).headD "" ∨
          (jsSplit raw).get? 1 = some dest
      · rw [if_pos hguard] at hacc
        exact absurd hacc (by simp)
      · rw [if_neg hguard] at hacc
        cases hc : (jsSplit raw).get? 1 with
        | none =>
          rw [hc] at hacc
          simp at hacc
        | some sc =>
          rw [hc] at hacc
          have hrows' : rows' = mapWithIndex (fun idx r =>
              if idx ≠ rowIdx then r
              else transformRow r sc dest ((jsSplit raw).get? 3)) 0 rows := by
            injection hacc with h
            exact h.symm
          subst hrows'
          refine ⟨length_mapWithIndex _ _ _, ?_⟩
          intro i hi
          rw [get?_mapWithIndex]
          cases hgi : rows.get? i with
          | none => simp
          | some ri => simp [hi]

/-- Witness for C7 on the first drop from the initial state. -/
theorem drop_modifies_only_matched_row_witness :
    handleDrop initialRows 0 "slot-1-1" "row-1:palette::map" =
      DropResult.accepted [rowAfterFirstDrop] ∧
    ([rowAfterFirstDrop] : Snapshot).length = initialRows.length ∧
    (∀ i, i ≠ 0 →
      ([rowAfterFirstDrop] : Snapshot).get? i = initialRows.get? i) :=
  ⟨by decide,
    (drop_modifies_only_matched_row initialRows 0 "slot-1-1"
      "row-1:palette::map" [rowAfterFirstDrop] (by decide)).1,
    (drop_modifies_only_matched_row initialRows 0 "slot-1-1"
      "row-1:palette::map" [rowAfterFirstDrop] (by decide)).2⟩

/-- C10: removal from a palette or trash filters by token name. When the
source container holds the dragged token's name more than once, an
accepted drop removes every occurrence from the source container (the
filter leaves none) while the destination gains at most one, so the row's
total count of that token strictly decreases. -/
theorem duplicate_removal_decreases_count (r : RowState)
    (sc dest : String) (f : String)
    (hnd : (r.slots.map (fun p => p.1)).Nodup)
    (hsc : sc = "palette" ∨ sc = "trash")
    (hmany : 2 ≤ (if sc = "palette" then r.palette
      else r.trash).count (some f))
    (hdest : strStartsWith dest "slot-" = true →
      containsKey r.slots dest = true)
    (hne : sc ≠ dest) :
    ((sc = "palette" →
        (removeFrom r sc (some f)).palette.count (some f) = 0) ∧
      (sc = "trash" →
        (removeFrom r sc (some f)).trash.count (some f) = 0)) ∧
    rowCount (transformRow r sc dest (some f)) f < rowCount r f := by
  rcases hsc with hsc | hsc
  · subst hsc
    have hmany' : 2 ≤ r.palette.count (some f) := by simpa using hmany
    clear hmany
    constructor
    · constructor
      · intro _
        have hrp : (removeFrom r "palette" (some f)).palette =
            r.palette.filter (fun item => item ≠ some f) := by
          simp [removeFrom]
        rw [hrp, count_filter_ne]
        simp
      · intro hx
        exact absurd hx (by decide)
    · rw [show transformRow r "palette" dest (some f) =
          placeInto { r with
            palette := r.palette.filter (fun item => item ≠ some f) }
            "palette" dest (some f) from by
        simp [transformRow, removeFrom]]
      by_cases hd : strStartsWith dest "slot-" = true
      · by_cases ht : truthy (getVal r.slots dest) = true
        · rw [show placeInto { r with
              palette := r.palette.filter (fun item => item ≠ some f) }
              "palette" dest (some f) =
              { r with
                palette := r.palette.filter (fun item => item ≠ some f) ++
                  [getVal r.slots dest],
                slots := setKey r.slots dest (some f) } from by
            simp [placeInto, hd, ht, palette_not_slot, getVal]]
          have e2 := count_vals_setKey r.slots dest (some f) f hnd
            (hdest hd)
          rw [rowCount, rowCount, count_rowTokens, count_rowTokens]
          simp only [List.count_append, count_filter_ne,
            count_singleton_opt, eq_self_iff_true, if_true]
          by_cases het : getVal r.slots dest = some f <;>
            simp [het] at e2 ⊢ <;>
            omega
        · rw [show placeInto { r with
              palette := r.palette.filter (fun item => item ≠ some f) }
              "palette" dest (some f) =
              { r with
                palette := r.palette.filter (fun item => item ≠ some f),
                slots := setKey r.slots dest (some f) } from by
            simp [placeInto, hd, ht]]
          have e2 := count_vals_setKey r.slots dest (some f) f hnd
            (hdest hd)
          rw [rowCount, rowCount, count_rowTokens, count_rowTokens]
          simp only [List.count_append, count_filter_ne,
            eq_self_iff_true, if_true]
          by_cases het : getVal r.slots dest = some f <;>
            simp [het] at e2 ⊢ <;>
            omega
      · by_cases hdp : dest = "palette"
        · exact absurd hdp.symm (by simpa using hne)
        · rw [show placeInto { r with
              palette := r.palette.filter (fun item => item ≠ some f) }
              "palette" dest (some f) =
              { r with
                palette := r.palette.filter (fun item => item ≠ some f),
                trash := r.trash ++ [some f] } from by
            simp [placeInto, hd, hdp]]
          rw [rowCount, rowCount, count_rowTokens, count_rowTokens]
          simp only [List.count_append, count_filter_ne,
            count_singleton_opt, eq_self_iff_true, if_true]
          omega
  · subst hsc
    have hmany' : 2 ≤ r.trash.count (some f) := by simpa using hmany
    clear hmany
    constructor
    · constructor
      · intro hx
        exact absurd hx (by decide)
      · intro _
        have hrt : (removeFrom r "trash" (some f)).trash =
            r.trash.filter (fun item => item ≠ some f) := by
          simp [removeFrom, trash_ne_palette, trash_not_slot]
        rw [hrt, count_filter_ne]
        simp
    · rw [show transformRow r "trash" dest (some f) =
          placeInto { r with
            trash := r.trash.filter (fun item => item ≠ some f) }
            "trash" dest (some f) from by
        simp [transformRow, removeFrom, trash_ne_palette, trash_not_slot]]
      by_cases hd : strStartsWith dest "slot-" = true
      · by_cases ht : truthy (getVal r.slots dest) = true
        · rw [show placeInto { r with
              trash := r.trash.filter (fun item => item ≠ some f) }
              "trash" dest (some f) =
              { r with
                trash := r.trash.filter (fun item => item ≠ some f) ++
                  [getVal r.slots dest],
                slots := setKey r.slots dest (some f) } from by
            simp [placeInto, hd, ht, trash_not_slot, trash_ne_palette,
              getVal]]
          have e2 := count_vals_setKey r.slots dest (some f) f hnd
            (hdest hd)
          rw [rowCount, rowCount, count_rowTokens, count_rowTokens]
          simp only [List.count_append, count_filter_ne,
            count_singleton_opt, eq_self_iff_true, if_true]
          by_cases het : getVal r.slots dest = some f <;>
            simp [het] at e2 ⊢ <;>
            omega
        · rw [show placeInto { r with
              trash := r.trash.filter (fun item => item ≠ some f) }
              "trash" dest (some f) =
              { r with
                trash := r.trash.filter (fun item => item ≠ some f),
                slots := setKey r.slots dest (some f) } from by
            simp [placeInto, hd, ht]]
          have e2 := count_vals_setKey r.slots dest (some f) f hnd
            (hdest hd)
          rw [rowCount, rowCount, count_rowTokens, count_rowTokens]
          simp only [List.count_append, count_filter_ne,
            eq_self_iff_true, if_true]
          by_cases het : getVal r.slots dest = some f <;>
            simp [het] at e2 ⊢ <;>
            omega
      · by_cases hdp : dest = "palette"
        · rw [show placeInto { r with
              trash := r.trash.filter (fun item => item ≠ some f) }
              "trash" dest (some f) =
              { r with
                trash := r.trash.filter (fun item => item ≠ some f),
                palette := r.palette ++ [some f] } from by
            simp [placeInto, hd, hdp, palette_not_slot]]
          rw [rowCount, rowCount, count_rowTokens, count_rowTokens]
          simp only [List.count_append, count_filter_ne,
            count_singleton_opt, eq_self_iff_true, if_true]
          omega
        · rw [show placeInto { r with
              trash := r.trash.filter (fun item => item ≠ some f) }
              "trash" dest (some f) =
              { r with
                trash := r.trash.filter (fun item => item ≠ some f) ++
                  [some f] } from by
            simp [placeInto, hd, hdp]]
          rw [rowCount, rowCount, count_rowTokens, count_rowTokens]
          simp only [List.count_append, count_filter_ne,
            count_singleton_opt, eq_self_iff_true, if_true]
          omega

/-- Witness for C10: a palette holding `map` twice, dropped onto an empty
slot. -/
theorem duplicate_removal_decreases_count_witness :
    2 ≤ (rowWithDupMap.palette.count (some "map")) ∧
    ((removeFrom rowWithDupMap "palette" (some "map")).palette.count
        (some "map") = 0 ∧
      rowCount (transformRow rowWithDupMap "palette" "slot-1-1"
        (some "map")) "map" < rowCount rowWithDupMap "map") := by
  refine ⟨by decide, ?_, ?_⟩
  · exact (by simpa using (duplicate_removal_decreases_count rowWithDupMap
      "palette" "slot-1-1" "map" (by decide) (Or.inl rfl) (by decide)
      (by decide) (by decide)).1)
  · exact (duplicate_removal_decreases_count rowWithDupMap
      "palette" "slot-1-1" "map" (by decide) (Or.inl rfl) (by decide)
      (by decide) (by decide)).2
